import Mathlib

/-!
Verification of the BlackBoxRecorder trace-capture core against its
specification.  The Python modules
`agent_blackbox_recorder/core/events.py`, `core/recorder.py`,
`core/snapshot.py` and `storage/json_file.py` are shallowly embedded as
pure Lean functions; stateful code becomes explicit state passing.

Modelling conventions:
* Python runtime values are the inductive `PyVal`; serialized trees
  (JSON-like Python data) are the inductive `J`.
* Arbitrary Python objects (the inputs of the serializer's fallback
  chain) are modelled by the `pyObj` constructor, whose fields record the
  outcome of each runtime interaction the serializer can attempt on the
  object: the result of the custom-serializer registry scan (`custom`),
  of `model_dump()` for pydantic models (`pydantic`), the `__dict__`
  attribute map (`dictAttrs`, `none` for slotted objects), the
  base64-encoded `pickle.dumps` blob (`pickled`, `none` when pickling
  raises), and `str()` (`strRepr`, `none` when `__str__` raises).
  An inner `none` in `custom`/`pydantic` means the call raises.
* Python exceptions are modelled with `Except String`; a `try/except`
  block becomes a `match` that recovers from `.error`.  Exception
  message texts are opaque at runtime, so recorded warning strings use
  the placeholder "raised" where Python would interpolate `{e}`.
* Runtime-generated data (uuids, wall-clock timestamps) are passed in as
  parameters or modelled as presence flags, since the claims only speak
  about identity equalities and about whether timestamp fields are set.
* Python dicts are association lists; assignment `d[k] = v` is `upsert`
  (update in place, else append), matching insertion-order semantics.
* Floats are carried by bit pattern and never interpreted; `==` on two
  floats is modelled as bit equality (NaN and -0.0 are not modelled; no
  claim exercises them), and cross-type numeric equality such as
  `1 == 1.0` is modelled as false (no claim compares an int node against
  a float node; `_type` tags differ first in every serialized tree).
-/

set_option linter.unusedVariables false

namespace BlackBox

/-- JSON-like Python data: the self-describing serialized trees built by
`SnapshotEngine._serialize_state` and stored in `StateSnapshot.state`. -/
inductive J where
  | jnull
  | jbool (b : Bool)
  | jint (n : Int)
  | jfloat (bits : Nat)
  | jstr (s : String)
  | jarr (xs : List J)
  | jobj (fields : List (String × J))
  deriving Repr

/-- Python `d.get(k)` / `k in d` on an association-list dict. -/
def alookup (fields : List (String × J)) (k : String) : Option J :=
  match fields with
  | [] => none
  | (k', v) :: rest => if k' = k then some v else alookup rest k

/-- Python dict assignment `d[k] = v`: update in place if the key is
present (keeping its position), else append at the end. -/
def upsert (fields : List (String × J)) (k : String) (v : J) : List (String × J) :=
  match fields with
  | [] => [(k, v)]
  | (k', v') :: rest =>
    if k' = k then (k, v) :: rest else (k', v') :: upsert rest k v

/-- Dictionary keys of the modelled Python values: strings and ints (the
hashable key kinds the claims exercise). -/
inductive PyKey where
  | kstr (s : String)
  | kint (n : Int)
  deriving Repr, DecidableEq

/-- Python `str(key)` on a dict key (`str` of an int is its decimal
rendering). -/
def PyKey.pyStr : PyKey → String
  | .kstr s => s
  | .kint n => toString n

/-- Python runtime values fed to `SnapshotEngine.capture`.  Scalars and
built-in containers are structural; arbitrary objects are `pyObj` (see
the module docstring for the meaning of its fields). -/
inductive PyVal where
  | pyNone
  | pyBool (b : Bool)
  | pyInt (n : Int)
  | pyFloat (bits : Nat)
  | pyStr (s : String)
  | pyList (xs : List PyVal)
  | pyTuple (xs : List PyVal)
  | pyDict (entries : List (PyKey × PyVal))
  | pyObj (typeName module : String)
          (custom : Option (Option (List (String × J))))
          (pydantic : Option (Option (List (String × J))))
          (dictAttrs : Option (List (String × PyVal)))
          (pickled : Option String)
          (strRepr : Option String)
  deriving Repr

/-- Python `type(v).__name__`. -/
def pyTypeName : PyVal → String
  | .pyNone => "NoneType"
  | .pyBool _ => "bool"
  | .pyInt _ => "int"
  | .pyFloat _ => "float"
  | .pyStr _ => "str"
  | .pyList _ => "list"
  | .pyTuple _ => "tuple"
  | .pyDict _ => "dict"
  | .pyObj tn _ _ _ _ _ _ => tn

/-- Python `key.startswith("_")` (first character is an underscore;
written over the character list so it reduces definitionally). -/
def startsWithUnderscore (k : String) : Bool :=
  match k.data with
  | [] => false
  | c :: _ => c == '_'

/-- The tail of `_serialize_state`'s fallback chain: the pickle fallback
(guarded by try/except, warning on failure) followed by the `str(state)`
last resort, which is NOT guarded — when `str()` itself raises, the
exception propagates out of the serializer. -/
def serializeLastResort (tn : String) (pick : Option String)
    (strR : Option String) (warnings : List String) (path : String) :
    List String × Except String (J × Bool) :=
  match pick with
  | some enc => (warnings, .ok (.jobj [("_pickled", .jstr enc), ("_type", .jstr tn)], true))
  | none =>
    let warnings := warnings ++ [path ++ ": pickle fallback failed: raised"]
    match strR with
    | some s =>
      (warnings, .ok (.jobj [("_str", .jstr (s.take 500)), ("_type", .jstr tn),
                             ("_unserializable", .jbool true)], false))
    | none => (warnings, .error "exception raised by str()")

mutual

/-- `SnapshotEngine._serialize_state(state, warnings, path, max_depth)`.
Returns the updated warnings list (the Python code mutates it in place;
warnings appended before an exception survive it) and either the raised
exception or the pair `(serialized_tree, is_restorable)`.  The branch
order follows the source: depth check, registered custom serializer
(modelled per object by the `custom` field; the registry is assumed not
to contain built-in types), `None`, primitives, list/tuple, dict,
pydantic model, `__dict__` walk (its try/except catches exceptions
raised while serializing attributes), pickle, `str`. -/
def serializeState (v : PyVal) (warnings : List String) (path : String)
    (maxDepth : Nat) : List String × Except String (J × Bool) :=
  if maxDepth = 0 then
    (warnings ++ [path ++ ": max depth reached"],
     .ok (.jobj [("_error", .jstr "max_depth_reached"), ("_path", .jstr path)], false))
  else
    match v with
    | .pyObj tn md custom pyd attrs pick strR =>
      match custom with
      | some (some flds) =>
        (warnings, .ok (.jobj (upsert flds "_custom_type" (.jstr tn)), true))
      | custom =>
        let warnings :=
          match custom with
          | some none => warnings ++ [path ++ ": custom serializer failed: raised"]
          | _ => warnings
        match pyd with
        | some (some dump) =>
          (warnings, .ok (.jobj [("_value", .jobj dump), ("_type", .jstr tn),
                                 ("_pydantic", .jbool true), ("_module", .jstr md)], true))
        | pyd =>
          let warnings :=
            match pyd with
            | some none => warnings ++ [path ++ ": Pydantic serialization failed: raised"]
            | _ => warnings
          match attrs with
          | some l =>
            match serializeAttrs l [] true warnings path maxDepth with
            | (w, .ok (objDict, r)) =>
              (w, .ok (.jobj [("_value", .jobj objDict), ("_type", .jstr tn),
                              ("_module", .jstr md)], r))
            | (w, .error e) =>
              serializeLastResort tn pick strR
                (w ++ [path ++ ": dict serialization failed: " ++ e]) path
          | none => serializeLastResort tn pick strR warnings path
    | .pyNone =>
      (warnings, .ok (.jobj [("_value", .jnull), ("_type", .jstr "NoneType")], true))
    | .pyBool b =>
      (warnings, .ok (.jobj [("_value", .jbool b), ("_type", .jstr "bool")], true))
    | .pyInt n =>
      (warnings, .ok (.jobj [("_value", .jint n), ("_type", .jstr "int")], true))
    | .pyFloat bits =>
      (warnings, .ok (.jobj [("_value", .jfloat bits), ("_type", .jstr "float")], true))
    | .pyStr s =>
      (warnings, .ok (.jobj [("_value", .jstr s), ("_type", .jstr "str")], true))
    | .pyList xs =>
      match serializeSeq xs warnings path 0 maxDepth with
      | (w, .error e) => (w, .error e)
      | (w, .ok (items, r)) =>
        (w, .ok (.jobj [("_value", .jarr items), ("_type", .jstr "list")], r))
    | .pyTuple xs =>
      match serializeSeq xs warnings path 0 maxDepth with
      | (w, .error e) => (w, .error e)
      | (w, .ok (items, r)) =>
        (w, .ok (.jobj [("_value", .jarr items), ("_type", .jstr "tuple")], r))
    | .pyDict entries =>
      match serializeDictEntries entries [] true warnings path maxDepth with
      | (w, .error e) => (w, .error e)
      | (w, .ok (items, r)) =>
        (w, .ok (.jobj [("_value", .jobj items), ("_type", .jstr "dict")], r))

/-- The list/tuple element loop of `_serialize_state`: each element is
serialized at `path[i]` with depth `max_depth - 1`; restorability is the
conjunction; an exception from an element propagates (this loop is not
guarded by a try/except). -/
def serializeSeq (xs : List PyVal) (warnings : List String) (path : String)
    (i : Nat) (maxDepth : Nat) : List String × Except String (List J × Bool) :=
  match xs with
  | [] => (warnings, .ok ([], true))
  | x :: rest =>
    match serializeState x warnings (path ++ "[" ++ toString i ++ "]") (maxDepth - 1) with
    | (w, .error e) => (w, .error e)
    | (w, .ok (j, r)) =>
      match serializeSeq rest w path (i + 1) maxDepth with
      | (w2, .error e) => (w2, .error e)
      | (w2, .ok (items, r2)) => (w2, .ok (j :: items, r && r2))

/-- The dict entry loop of `_serialize_state`: values serialized at
`path.key` with depth `max_depth - 1`, keys coerced by `str(key)`,
stored with dict-assignment semantics (`items[str(key)] = serialized`);
not guarded by a try/except. -/
def serializeDictEntries (entries : List (PyKey × PyVal))
    (acc : List (String × J)) (racc : Bool) (warnings : List String)
    (path : String) (maxDepth : Nat) :
    List String × Except String (List (String × J) × Bool) :=
  match entries with
  | [] => (warnings, .ok (acc, racc))
  | (k, v) :: rest =>
    match serializeState v warnings (path ++ "." ++ k.pyStr) (maxDepth - 1) with
    | (w, .error e) => (w, .error e)
    | (w, .ok (j, r)) =>
      serializeDictEntries rest (upsert acc k.pyStr j) (racc && r) w path maxDepth

/-- The `__dict__` walk of `_serialize_state`: attributes whose name
starts with "_" are skipped; the others are serialized at `path.key`
with depth `max_depth - 1`.  Exceptions propagate to the caller (which
wraps this walk in a try/except in `serializeState`). -/
def serializeAttrs (l : List (String × PyVal)) (acc : List (String × J))
    (racc : Bool) (warnings : List String) (path : String) (maxDepth : Nat) :
    List String × Except String (List (String × J) × Bool) :=
  match l with
  | [] => (warnings, .ok (acc, racc))
  | (k, v) :: rest =>
    if startsWithUnderscore k then serializeAttrs rest acc racc warnings path maxDepth
    else
      match serializeState v warnings (path ++ "." ++ k) (maxDepth - 1) with
      | (w, .error e) => (w, .error e)
      | (w, .ok (j, r)) =>
        serializeAttrs rest (upsert acc k j) (racc && r) w path maxDepth

end

mutual

/-- The embedding of JSON-like data back into Python runtime values
(what the deserializer returns when it hands stored data through
unchanged): arrays become lists, objects become string-keyed dicts. -/
def jToPy : J → PyVal
  | .jnull => .pyNone
  | .jbool b => .pyBool b
  | .jint n => .pyInt n
  | .jfloat bits => .pyFloat bits
  | .jstr s => .pyStr s
  | .jarr xs => .pyList (jToPyList xs)
  | .jobj fields => .pyDict (jToPyFields fields)

def jToPyList : List J → List PyVal
  | [] => []
  | x :: rest => jToPy x :: jToPyList rest

def jToPyFields : List (String × J) → List (PyKey × PyVal)
  | [] => []
  | (k, v) :: rest => (.kstr k, jToPy v) :: jToPyFields rest

end

/-- `data.get(k)` handed through as a Python value (`None` when the key
is absent). -/
def jToPyOpt : Option J → PyVal
  | none => .pyNone
  | some j => jToPy j

/-- Python truthiness of `d.get(k)` (missing key gives `None`, falsy).
The float case tests the zero bit pattern (`-0.0` is not modelled). -/
def jTruthy : Option J → Bool
  | none => false
  | some .jnull => false
  | some (.jbool b) => b
  | some (.jint n) => n != 0
  | some (.jfloat bits) => bits != 0
  | some (.jstr s) => s != ""
  | some (.jarr xs) => !xs.isEmpty
  | some (.jobj fields) => !fields.isEmpty

/-- `data.get("_type", "unknown")` as used in string comparisons; a
present non-string value compares unequal to every type-name literal,
so it is collapsed to a sentinel. -/
def storedTypeOf (fields : List (String × J)) : String :=
  match alookup fields "_type" with
  | some (.jstr s) => s
  | some _ => "<non-string>"
  | none => "unknown"

/-- The runtime environment the deserializer may call into:
`pickle.loads` on a stored blob and the engine's custom-deserializer
registry (`_custom_deserializers`, keyed by type name).  Both are
external effects, so they are parameters of the model. -/
structure PyEnv where
  pickleLoads : String → Except String PyVal
  customDeser : String → Option (J → Except String PyVal)

/-- A fresh `SnapshotEngine`: empty custom registry; pickle blobs are
opaque to the model. -/
def freshEnv : PyEnv :=
  { pickleLoads := fun _ => .error "opaque pickle blob",
    customDeser := fun _ => none }

/-- Termination helper: a value found by `alookup` is structurally
smaller than the field list. -/
theorem alookup_sizeOf {fields : List (String × J)} {k : String} {v : J}
    (h : alookup fields k = some v) : sizeOf v < sizeOf fields := by
  induction fields with
  | nil => simp [alookup] at h
  | cons hd tl ih =>
    obtain ⟨k', v'⟩ := hd
    simp only [alookup] at h
    split at h
    · cases h
      simp only [List.cons.sizeOf_spec, Prod.mk.sizeOf_spec]
      omega
    · have := ih h
      simp only [List.cons.sizeOf_spec]
      omega

mutual

/-- `SnapshotEngine._deserialize_state(data, type_name)`.  The source
assumes `data` is a dict (its callers only pass dicts); on any other
input Python's `in` test raises, modelled as an error.  Branch order
follows the source: custom-deserializer registry (falling through when
the stored type name is not registered), pickled blob, unserializable
marker, then dispatch on the stored `_type`. -/
def deserializeState (env : PyEnv) (data : J) (typeName : String) :
    Except String PyVal :=
  match data with
  | .jobj fields =>
    (match alookup fields "_custom_type" with
     | some (.jstr t) =>
       match env.customDeser t with
       | some f => f (.jobj fields)
       | none => deserializeCore env fields typeName
     | _ => deserializeCore env fields typeName)
  | _ => .error "TypeError: argument is not a mapping"
termination_by sizeOf data

/-- The body of `_deserialize_state` after the custom-registry check. -/
def deserializeCore (env : PyEnv) (fields : List (String × J))
    (typeName : String) : Except String PyVal :=
  match alookup fields "_pickled" with
  | some (.jstr s) => env.pickleLoads s
  | some _ => .error "AttributeError: encode"
  | none =>
    if jTruthy (alookup fields "_unserializable") then
      match alookup fields "_str" with
      | some j => .ok (jToPy j)
      | none => .ok (.pyStr ("<" ++ typeName ++ ": unserializable>"))
    else
      let value := alookup fields "_value"
      let storedType := storedTypeOf fields
      if storedType = "NoneType" then .ok .pyNone
      else if storedType = "bool" ∨ storedType = "int" ∨
              storedType = "float" ∨ storedType = "str" then
        .ok (jToPyOpt value)
      else if storedType = "list" ∨ storedType = "tuple" then
        match h : value with
        | some (.jarr items) =>
          (match deserializeItems env items with
           | .error e => .error e
           | .ok vs => .ok (if storedType = "tuple" then .pyTuple vs else .pyList vs))
        | _ => .error "TypeError: not iterable"
      else if storedType = "dict" then
        match h : value with
        | some (.jobj entries) =>
          (match deserializeMapItems env entries with
           | .error e => .error e
           | .ok vs => .ok (.pyDict vs))
        | _ => .error "AttributeError: items"
      else if jTruthy (alookup fields "_pydantic") then .ok (jToPyOpt value)
      else
        match h : value with
        | some (.jobj entries) =>
          (match deserializeObjItems env entries with
           | .error e => .error e
           | .ok vs => .ok (.pyDict vs))
        | _ => .ok (jToPyOpt value)
termination_by sizeOf fields
decreasing_by
  · have h' : alookup fields "_value" = some (J.jarr items) := h
    have := alookup_sizeOf h'
    simp only [J.jarr.sizeOf_spec] at this
    omega
  · have h' : alookup fields "_value" = some (J.jobj entries) := h
    have := alookup_sizeOf h'
    simp only [J.jobj.sizeOf_spec] at this
    omega
  · have h' : alookup fields "_value" = some (J.jobj entries) := h
    have := alookup_sizeOf h'
    simp only [J.jobj.sizeOf_spec] at this
    omega

/-- The list/tuple rebuild loop of `_deserialize_state`. -/
def deserializeItems (env : PyEnv) (items : List J) :
    Except String (List PyVal) :=
  match items with
  | [] => .ok []
  | x :: rest =>
    match deserializeState env x "unknown" with
    | .error e => .error e
    | .ok v =>
      match deserializeItems env rest with
      | .error e => .error e
      | .ok vs => .ok (v :: vs)
termination_by sizeOf items

/-- The dict rebuild loop of `_deserialize_state` (wire keys are
strings, so rebuilt keys are `kstr`). -/
def deserializeMapItems (env : PyEnv) (entries : List (String × J)) :
    Except String (List (PyKey × PyVal)) :=
  match entries with
  | [] => .ok []
  | (k, j) :: rest =>
    match deserializeState env j "unknown" with
    | .error e => .error e
    | .ok v =>
      match deserializeMapItems env rest with
      | .error e => .error e
      | .ok vs => .ok ((.kstr k, v) :: vs)
termination_by sizeOf entries

/-- The "other objects" rebuild loop: entries that look like serialized
nodes (a dict containing "_value") are deserialized recursively, the
rest are handed through unchanged. -/
def deserializeObjItems (env : PyEnv) (entries : List (String × J)) :
    Except String (List (PyKey × PyVal)) :=
  match entries with
  | [] => .ok []
  | (k, item) :: rest =>
    let hd :=
      match item with
      | .jobj ifields =>
        if (alookup ifields "_value").isSome
        then deserializeState env (.jobj ifields) "unknown"
        else .ok (jToPy (.jobj ifields))
      | _ => .ok (jToPy item)
    match hd with
    | .error e => .error e
    | .ok v =>
      match deserializeObjItems env rest with
      | .error e => .error e
      | .ok vs => .ok ((.kstr k, v) :: vs)
termination_by sizeOf entries

end

mutual

/-- Python `==` on JSON-like data, as evaluated inside
`SnapshotEngine._diff_values`: dicts compare as unordered maps, lists
pointwise, booleans and ints cross-compare numerically (`True == 1`).
Floats compare by bit pattern (see the module docstring). -/
def pyEq : J → J → Bool
  | .jnull, .jnull => true
  | .jbool b, .jbool c => b == c
  | .jbool b, .jint m => (if b then (1 : Int) else 0) == m
  | .jint n, .jbool c => n == (if c then (1 : Int) else 0)
  | .jint n, .jint m => n == m
  | .jfloat a, .jfloat b => a == b
  | .jstr s, .jstr t => s == t
  | .jarr xs, .jarr ys => pyEqList xs ys
  | .jobj f1, .jobj f2 => f1.length == f2.length && pyEqFields f1 f2
  | _, _ => false

def pyEqList : List J → List J → Bool
  | [], [] => true
  | x :: xs, y :: ys => pyEq x y && pyEqList xs ys
  | _, _ => false

def pyEqFields : List (String × J) → List (String × J) → Bool
  | [], _ => true
  | (k, v) :: rest, f2 =>
    (match alookup f2 k with
     | some w => pyEq v w
     | none => false) && pyEqFields rest f2

end

/-- Python `type(v).__name__` for JSON-like (non-dict handled) data, as
used by `_diff_values` when a compared value is not a dict. -/
def jTypeName : J → String
  | .jnull => "NoneType"
  | .jbool _ => "bool"
  | .jint _ => "int"
  | .jfloat _ => "float"
  | .jstr _ => "str"
  | .jarr _ => "list"
  | .jobj _ => "dict"

/-- One change descriptor of `SnapshotEngine.diff` (the source builds
dicts `{"type": ..., "from": ..., "to": ...}`; the tag is the
constructor here). -/
inductive DiffEntry where
  | typeChanged (oldType newType : J)
  | added (value : J)
  | removed (value : J)
  | changed (fromValue toValue : J)
  deriving Repr

def keysOf (fields : List (String × J)) : List String := fields.map Prod.fst

/-- First-occurrence deduplication (Python's key-set union iterates a
set; its unspecified iteration order is fixed deterministically here —
the diff result is a path-keyed mapping, so no claim depends on it). -/
def dedupKeys : List String → List String
  | [] => []
  | k :: rest => k :: (dedupKeys rest).filter (fun k2 => k2 ≠ k)

/-- `set(v1.keys()) | set(v2.keys())` of `_diff_values`. -/
def unionKeys (f1 f2 : List (String × J)) : List String :=
  dedupKeys (keysOf f1 ++ (keysOf f2).filter (fun k => ¬ (keysOf f1).contains k))

/-- Termination helper: `value.get("_value", value)` never grows the
field list. -/
theorem getD_inner_sizeOf {f g : List (String × J)}
    (h : (alookup f "_value").getD (.jobj f) = .jobj g) :
    sizeOf g ≤ sizeOf f := by
  cases halo : alookup f "_value" with
  | none =>
    rw [halo] at h
    simp only [Option.getD_none, J.jobj.injEq] at h
    subst h
    exact Nat.le_refl _
  | some j =>
    rw [halo] at h
    simp only [Option.getD_some] at h
    subst h
    have := alookup_sizeOf halo
    simp only [J.jobj.sizeOf_spec] at this
    omega

mutual

/-- `SnapshotEngine._diff_values(value1, value2, path)`: no entry when
the values compare `==`; a single `type_changed` entry when the declared
types differ (`_type` of a dict node, else the runtime type name); when
both `_value` payloads (defaulting to the node itself) are dicts,
recurse over the union of keys with added/removed/changed entries;
otherwise a single `changed` entry at this path. -/
def diffValues (v1 v2 : J) (path : String) : List (String × DiffEntry) :=
  if pyEq v1 v2 then []
  else
    let type1 : J :=
      match v1 with
      | .jobj f => (alookup f "_type").getD .jnull
      | _ => .jstr (jTypeName v1)
    let type2 : J :=
      match v2 with
      | .jobj f => (alookup f "_type").getD .jnull
      | _ => .jstr (jTypeName v2)
    if ¬ pyEq type1 type2 then [(path, .typeChanged type1 type2)]
    else
      match v1, v2 with
      | .jobj f1, .jobj f2 =>
        match h1 : (alookup f1 "_value").getD (.jobj f1),
              h2 : (alookup f2 "_value").getD (.jobj f2) with
        | .jobj g1, .jobj g2 => diffKeys (unionKeys g1 g2) g1 g2 path
        | i1, i2 => [(path, .changed i1 i2)]
      | _, _ => [(path, .changed v1 v2)]
termination_by (sizeOf v1 + sizeOf v2, 0)
decreasing_by
  · have a1 := getD_inner_sizeOf h1
    have a2 := getD_inner_sizeOf h2
    simp only [J.jobj.sizeOf_spec]
    apply Prod.Lex.left
    omega

/-- The per-key union loop of `_diff_values` (a key absent from both
sides cannot arise from the union and yields nothing). -/
def diffKeys (keys : List String) (g1 g2 : List (String × J)) (path : String) :
    List (String × DiffEntry) :=
  match keys with
  | [] => []
  | k :: rest =>
    (match h1 : alookup g1 k, h2 : alookup g2 k with
     | none, some w => [(path ++ "." ++ k, .added w)]
     | some w, none => [(path ++ "." ++ k, .removed w)]
     | some x, some y => diffValues x y (path ++ "." ++ k)
     | none, none => []) ++ diffKeys rest g1 g2 path
termination_by (sizeOf g1 + sizeOf g2, keys.length)
decreasing_by
  · have a1 := alookup_sizeOf h1
    have a2 := alookup_sizeOf h2
    apply Prod.Lex.left
    omega
  · apply Prod.Lex.right
    simp

end

/-- `StateSnapshot` from events.py (fields relevant to the claims; the
uuid `id` and the `timestamp` are runtime data and omitted). -/
structure StateSnapshot where
  traceId : String
  eventId : String
  state : J
  stateType : String
  restorable : Bool
  checkpointName : Option String
  description : Option String
  serializationWarnings : List String
  deriving Repr

/-- `SnapshotEngine.capture`: serializes the state starting from a fresh
warnings list at path "root" with the default depth budget 10 and wraps
the result in a `StateSnapshot`; an exception from the serializer
propagates (`capture` has no try/except). -/
def capture (v : PyVal) (traceId eventId : String)
    (checkpointName description : Option String) : Except String StateSnapshot :=
  match serializeState v [] "root" 10 with
  | (_, .error e) => .error e
  | (w, .ok (tree, restorable)) =>
    .ok { traceId := traceId, eventId := eventId, state := tree,
          stateType := pyTypeName v, restorable := restorable,
          checkpointName := checkpointName, description := description,
          serializationWarnings := w }

/-- `SnapshotEngine.diff`: diff the two serialized state trees starting
at path "root". -/
def snapshotDiff (s1 s2 : StateSnapshot) : List (String × DiffEntry) :=
  diffValues s1.state s2.state "root"

/-- `EventStatus` from events.py: `running` is initial, the rest are
terminal. -/
inductive EventStatus where
  | running
  | success
  | error
  | cancelled
  deriving Repr, DecidableEq

/-- A status is terminal when it is success, error or cancelled. -/
def EventStatus.isTerminal : EventStatus → Bool
  | .running => false
  | _ => true

/-- `TraceEvent` from events.py, restricted to the fields the claims are
about.  `endSet`/`durationSet` model whether `end_timestamp` and
`duration_ms` are set (their clock values are runtime data).
`metaError` models the `metadata["error"]` entry written by `fail`. -/
structure Event where
  id : String
  traceId : String
  parentId : Option String
  name : String
  status : EventStatus
  endSet : Bool
  durationSet : Bool
  metaError : Option String
  deriving Repr, DecidableEq

/-- A fresh `TraceEvent`: the pydantic field defaults give
`status = RUNNING`, `end_timestamp = None`, `duration_ms = None`,
`parent_id = None`. -/
def mkEvent (id name : String) : Event :=
  { id := id, traceId := "", parentId := none, name := name,
    status := .running, endSet := false, durationSet := false,
    metaError := none }

/-- `TraceEvent.complete(status=SUCCESS)`: sets `end_timestamp`,
`duration_ms` and then `status` to the given argument, with no guard
against being called again or with a non-terminal argument. -/
def Event.complete (e : Event) (st : EventStatus) : Event :=
  { e with endSet := true, durationSet := true, status := st }

/-- `TraceEvent.fail`: records the error message in metadata and
completes with `ERROR`. -/
def Event.fail (e : Event) (msg : String) : Event :=
  Event.complete { e with metaError := some msg } .error

/-- `TraceSession` from events.py (fields relevant to the claims).
`endSet` models whether `end_time` is set. -/
structure Session where
  id : String
  name : String
  events : List Event
  snapshots : List StateSnapshot
  status : EventStatus
  endSet : Bool
  rootEventId : Option String
  deriving Repr

/-- A fresh `TraceSession`: status `RUNNING`, no end time, no events,
no snapshots, no root event. -/
def mkSession (id name : String) : Session :=
  { id := id, name := name, events := [], snapshots := [],
    status := .running, endSet := false, rootEventId := none }

/-- `TraceSession.add_event`: stamps the event's `trace_id` with the
session id, appends it, and sets `root_event_id` when it is still unset
and the appended event has no parent. -/
def Session.addEvent (s : Session) (e : Event) : Session :=
  let e := { e with traceId := s.id }
  { s with
    events := s.events ++ [e],
    rootEventId :=
      if s.rootEventId = none ∧ e.parentId = none then some e.id
      else s.rootEventId }

/-- `TraceSession.add_snapshot`: stamps the snapshot's `trace_id` and
appends it. -/
def Session.addSnapshot (s : Session) (snap : StateSnapshot) : Session :=
  { s with snapshots := s.snapshots ++ [{ snap with traceId := s.id }] }

/-- `TraceSession.complete`: sets the end time and the status. -/
def Session.complete (s : Session) (st : EventStatus) : Session :=
  { s with endSet := true, status := st }

/-- One index entry of storage/json_file.py (the summary dict that
`save_session` inserts into `index.json`). -/
structure SessionSummary where
  id : String
  name : String
  status : EventStatus
  endSet : Bool
  eventCount : Nat
  snapshotCount : Nat
  deriving Repr, DecidableEq

/-- The summary record `save_session` builds for the index. -/
def summarize (s : Session) : SessionSummary :=
  { id := s.id, name := s.name, status := s.status, endSet := s.endSet,
    eventCount := s.events.length, snapshotCount := s.snapshots.length }

/-- `JsonFileStorage` state: the session files on disk (keyed by session
id) and the `index.json` list. -/
structure StorageState where
  files : List (String × Session)
  index : List SessionSummary
  deriving Repr

/-- A fresh `JsonFileStorage` over an empty directory. -/
def StorageState.empty : StorageState := { files := [], index := [] }

/-- `JsonFileStorage.save_session`: writes `session_<id>.json`
(overwriting any previous file with that id), removes any existing
index entry with the session's id, and inserts the new summary at the
FRONT of the index. -/
def StorageState.saveSession (st : StorageState) (s : Session) : StorageState :=
  { files := (s.id, s) :: st.files.filter (fun f => f.1 ≠ s.id),
    index := summarize s :: st.index.filter (fun e => e.id ≠ s.id) }

/-- `JsonFileStorage.list_sessions(limit=100)`: the first `limit`
entries of the index. -/
def StorageState.listSessions (st : StorageState) (limit : Nat) : List SessionSummary :=
  st.index.take limit

/-- The session id `Recorder.replay` resolves when called without a
`session_id`: it calls `list_sessions()` (default limit 100) and picks
the LAST entry (`sessions[-1]["id"]`); `none` when the list is empty
(replay then warns and returns). -/
def StorageState.replayTargetId (st : StorageState) : Option String :=
  ((st.listSessions 100).getLast?).map (fun e => e.id)

/-- The mutable state of `Recorder` from recorder.py: the active
session, the span stack (top of stack at the HEAD here; the Python list
keeps it at the end — `stack[-1]`, `append`, `pop`), and the storage
backend's state.  The recorder's lock serializes all mutations, so the
model is a sequential state machine. -/
structure RecorderState where
  currentSession : Option Session
  eventStack : List Event
  storage : StorageState
  deriving Repr

/-- A freshly constructed `Recorder` over an empty storage directory. -/
def RecorderState.init : RecorderState :=
  { currentSession := none, eventStack := [], storage := .empty }

/-- `Recorder.end_session(status=SUCCESS)`: `None`/no-op when no session
is active; otherwise completes the session, saves it to storage, and
clears the active session and the span stack.  Also returns the
completed session (the Python return value). -/
def RecorderState.endSession (r : RecorderState) (st : EventStatus) :
    RecorderState × Option Session :=
  match r.currentSession with
  | none => (r, none)
  | some s =>
    let s := s.complete st
    ({ currentSession := none, eventStack := [],
       storage := r.storage.saveSession s }, some s)

/-- `Recorder.start_session`: if a session is already active it is ended
(and saved) first; then a fresh session is installed and the span stack
cleared.  The generated uuid and name are passed in as `sid`/`name`. -/
def RecorderState.startSession (r : RecorderState) (sid name : String) :
    RecorderState × Session :=
  let r := if r.currentSession.isSome then (r.endSession .success).1 else r
  let s := mkSession sid name
  ({ r with currentSession := some s, eventStack := [] }, s)

/-- `Recorder._record_span_start`: auto-starts a session when none is
active (`autoSid`/`autoName` stand for the generated id and name), sets
the span's parent to the top-of-stack span when the stack is non-empty,
stamps `trace_id`, appends the span to the session and pushes it on the
stack. -/
def RecorderState.recordSpanStart (r : RecorderState) (span : Event)
    (autoSid autoName : String) : RecorderState :=
  let r := if r.currentSession.isNone then (r.startSession autoSid autoName).1 else r
  match r.currentSession with
  | none => r
  | some s =>
    let span :=
      match r.eventStack with
      | top :: _ => { span with parentId := some top.id }
      | [] => span
    let span := { span with traceId := s.id }
    { r with currentSession := some (s.addEvent span),
             eventStack := span :: r.eventStack }

/-- `Recorder._record_span_end`: pops the stack only when the top
entry's id matches the ended span's id; then, whenever the stack is
empty (from the pop or because it already was), ends the session with
the span's status, mapping `RUNNING` to `SUCCESS`. -/
def RecorderState.recordSpanEnd (r : RecorderState) (span : Event) : RecorderState :=
  let r :=
    match r.eventStack with
    | top :: rest => if top.id = span.id then { r with eventStack := rest } else r
    | [] => r
  if r.eventStack = [] then
    (r.endSession (if span.status ≠ .running then span.status else .success)).1
  else r

/-- `Recorder._record_event` (used by `record_llm_call` and
`record_tool_call`): auto-starts a session when none is active, parents
the event under the top-of-stack span, stamps `trace_id` and appends. -/
def RecorderState.recordEvent (r : RecorderState) (e : Event)
    (autoSid autoName : String) : RecorderState :=
  let r := if r.currentSession.isNone then (r.startSession autoSid autoName).1 else r
  match r.currentSession with
  | none => r
  | some s =>
    let e :=
      match r.eventStack with
      | top :: _ => { e with parentId := some top.id }
      | [] => e
    let e := { e with traceId := s.id }
    { r with currentSession := some (s.addEvent e) }

/-- `Recorder.capture_state`: reads the top-of-stack event id (or "")
and the active session id (or ""), delegates to the snapshot engine,
and appends the snapshot to the session ONLY when a session is active
(there is no auto-start in this method); a serialization exception
propagates.  Returns the new recorder state and the engine's result. -/
def RecorderState.captureState (r : RecorderState) (v : PyVal)
    (name description : Option String) :
    RecorderState × Except String StateSnapshot :=
  let eventId := match r.eventStack with | top :: _ => top.id | [] => ""
  let traceId := match r.currentSession with | some s => s.id | none => ""
  match capture v traceId eventId name description with
  | .error e => (r, .error e)
  | .ok snap =>
    match r.currentSession with
    | some s => ({ r with currentSession := some (s.addSnapshot snap) }, .ok snap)
    | none => (r, .ok snap)

mutual

/-- Values built only from `None`, booleans, ints, floats, strings,
lists, tuples and dicts (the value grammar of claim C4/C6; no arbitrary
objects). -/
def isPlain : PyVal → Bool
  | .pyNone => true
  | .pyBool _ => true
  | .pyInt _ => true
  | .pyFloat _ => true
  | .pyStr _ => true
  | .pyList xs => isPlainList xs
  | .pyTuple xs => isPlainList xs
  | .pyDict entries => isPlainEntries entries
  | .pyObj _ _ _ _ _ _ _ => false

def isPlainList : List PyVal → Bool
  | [] => true
  | x :: rest => isPlain x && isPlainList rest

def isPlainEntries : List (PyKey × PyVal) → Bool
  | [] => true
  | (_, v) :: rest => isPlain v && isPlainEntries rest

end

/-- Keys of a dict literal are all strings and pairwise distinct (being
a Python dict, whose keys are necessarily distinct). -/
def entryKeysOk : List (PyKey × PyVal) → Bool
  | [] => true
  | (k, _) :: rest =>
    (match k with | .kstr _ => true | .kint _ => false) &&
    !(rest.map (fun e => e.1.pyStr)).contains k.pyStr &&
    entryKeysOk rest

mutual

/-- All dicts inside the value have string-only, pairwise-distinct
keys. -/
def strKeyed : PyVal → Bool
  | .pyNone => true
  | .pyBool _ => true
  | .pyInt _ => true
  | .pyFloat _ => true
  | .pyStr _ => true
  | .pyList xs => strKeyedList xs
  | .pyTuple xs => strKeyedList xs
  | .pyDict entries => entryKeysOk entries && strKeyedEntries entries
  | .pyObj _ _ _ _ _ _ _ => true

def strKeyedList : List PyVal → Bool
  | [] => true
  | x :: rest => strKeyed x && strKeyedList rest

def strKeyedEntries : List (PyKey × PyVal) → Bool
  | [] => true
  | (_, v) :: rest => strKeyed v && strKeyedEntries rest

end

mutual

/-- The nesting depth the serializer recurses through: 1 for leaves,
one more for each container level (an object's serialized attributes
count like a container level). -/
def pyDepth : PyVal → Nat
  | .pyNone => 1
  | .pyBool _ => 1
  | .pyInt _ => 1
  | .pyFloat _ => 1
  | .pyStr _ => 1
  | .pyList xs => 1 + pyDepthList xs
  | .pyTuple xs => 1 + pyDepthList xs
  | .pyDict entries => 1 + pyDepthEntries entries
  | .pyObj _ _ _ _ attrs _ _ =>
    1 + (match attrs with
         | some l => pyDepthAttrs l
         | none => 0)

def pyDepthList : List PyVal → Nat
  | [] => 0
  | x :: rest => max (pyDepth x) (pyDepthList rest)

def pyDepthEntries : List (PyKey × PyVal) → Nat
  | [] => 0
  | (_, v) :: rest => max (pyDepth v) (pyDepthEntries rest)

def pyDepthAttrs : List (String × PyVal) → Nat
  | [] => 0
  | (_, v) :: rest => max (pyDepth v) (pyDepthAttrs rest)

end

/-- The custom-serializer scan (or the pydantic dump) produced a field
map rather than being absent or raising. -/
def succeeds : Option (Option (List (String × J))) → Bool
  | some (some _) => true
  | _ => false

mutual

/-- Sufficient condition for the serializer not to raise on a value:
every object reachable through containers either short-circuits the
recursion (successful custom serializer or pydantic dump), has a
last-resort fallback (picklable, or `str()` succeeds), or walks a
`__dict__` whose public attributes all satisfy the condition
recursively (a raise below the walk is caught by the walk's
try/except, but then pickle or `str` must save the object — covered by
the previous disjuncts). -/
def neverRaises : PyVal → Bool
  | .pyNone => true
  | .pyBool _ => true
  | .pyInt _ => true
  | .pyFloat _ => true
  | .pyStr _ => true
  | .pyList xs => neverRaisesList xs
  | .pyTuple xs => neverRaisesList xs
  | .pyDict entries => neverRaisesEntries entries
  | .pyObj _ _ custom pyd attrs pick strR =>
    succeeds custom || succeeds pyd || pick.isSome || strR.isSome ||
    neverRaisesAttrsOpt attrs

def neverRaisesList : List PyVal → Bool
  | [] => true
  | x :: rest => neverRaises x && neverRaisesList rest

def neverRaisesEntries : List (PyKey × PyVal) → Bool
  | [] => true
  | (_, v) :: rest => neverRaises v && neverRaisesEntries rest

def neverRaisesAttrs : List (String × PyVal) → Bool
  | [] => true
  | (k, v) :: rest =>
    (startsWithUnderscore k || neverRaises v) && neverRaisesAttrs rest

def neverRaisesAttrsOpt : Option (List (String × PyVal)) → Bool
  | some l => neverRaisesAttrs l
  | none => false

end

/-- Fold `add_event` over a list of events (repeated
`TraceSession.add_event` calls). -/
def addEvents (s : Session) (es : List Event) : Session :=
  es.foldl Session.addEvent s

/-- A demo session fixture (uuid passed in as "s0"). -/
def demoSession : Session := mkSession "s0" "demo"

/-- A recorder state with an active session and an empty span stack. -/
def withSession (s : Session) : RecorderState :=
  { currentSession := some s, eventStack := [], storage := .empty }

/-- The serialized node of a Python int. -/
def intNode (n : Int) : J := .jobj [("_value", .jint n), ("_type", .jstr "int")]

/-- The snapshot `capture` produces for a bare int. -/
def intSnapshot (n : Int) (tid : String) : StateSnapshot :=
  { traceId := tid, eventId := "", state := intNode n, stateType := "int",
    restorable := true, checkpointName := none, description := none,
    serializationWarnings := [] }

/-- The serialized node of a Python str. -/
def strNode (s : String) : J := .jobj [("_value", .jstr s), ("_type", .jstr "str")]

/-- The serialized tree of `{"items": [...]}` (elements already
serialized). -/
def itemsTree (xs : List J) : J :=
  .jobj [("_value",
          .jobj [("items", .jobj [("_value", .jarr xs), ("_type", .jstr "list")])]),
         ("_type", .jstr "dict")]

/-- The snapshot `capture` produces for `{"items": [...]}`. -/
def itemsSnapshot (xs : List J) : StateSnapshot :=
  { traceId := "t", eventId := "e", state := itemsTree xs, stateType := "dict",
    restorable := true, checkpointName := none, description := none,
    serializationWarnings := [] }

/-- A Python object on which every serializer step fails: no registered
custom serializer, not a pydantic model, no `__dict__` (a `__slots__`
class), unpicklable (`__reduce__` raises), and `__str__` raises. -/
def badObj : PyVal := .pyObj "Weird" "m" none none none none none

/-- `nestedList n` is a list nested `n` levels around an int
(`pyDepth` is `n + 1`). -/
def nestedList : Nat → PyVal
  | 0 => .pyInt 0
  | n + 1 => .pyList [nestedList n]

/-- A picklable object (custom `__reduce__`) whose `__dict__` holds a
12-deep list (exhausting the depth budget) next to an attribute whose
serialization raises (so the walk's try/except falls through to the
pickle fallback). -/
def leakyObj : PyVal :=
  .pyObj "Leaky" "m" none none (some [("a", nestedList 11), ("b", badObj)])
    (some "BLOB") none

/-- The snapshot `capture` produces for `leakyObj`: the depth warning is
present, yet the snapshot is restorable because the failed `__dict__`
walk was recovered by the pickle fallback. -/
def leakySnapshot : StateSnapshot :=
  { traceId := "t", eventId := "e",
    state := .jobj [("_pickled", .jstr "BLOB"), ("_type", .jstr "Leaky")],
    stateType := "Leaky", restorable := true,
    checkpointName := none, description := none,
    serializationWarnings :=
      ["root.a[0][0][0][0][0][0][0][0][0]: max depth reached",
       "root.b: pickle fallback failed: raised",
       "root: dict serialization failed: exception raised by str()"] }

/-- A Python dict whose two distinct keys `1` and `"1"` coerce to the
same wire key: `{1: "a", "1": "b"}`. -/
def collideDict : PyVal := .pyDict [(.kint 1, .pyStr "a"), (.kstr "1", .pyStr "b")]

/-- The serialized tree of `collideDict`: the second assignment to wire
key "1" overwrote the first, so only one entry remains. -/
def collideTree : J :=
  .jobj [("_value", .jobj [("1", strNode "b")]), ("_type", .jstr "dict")]

/-- Repeated-`add_event` helper fact: `root_event_id` is set at most
once, to the first appended event whose `parent_id` is empty. -/
theorem addEvents_rootEventId (s : Session) (es : List Event) :
    (addEvents s es).rootEventId =
      match s.rootEventId with
      | some x => some x
      | none => (es.find? (fun e => e.parentId.isNone)).map (fun e => e.id) := by
  induction es generalizing s with
  | nil => cases h : s.rootEventId <;> simp [addEvents, h]
  | cons e es ih =>
    have step : addEvents s (e :: es) = addEvents (s.addEvent e) es := by
      simp [addEvents]
    rw [step, ih]
    cases h : s.rootEventId with
    | some x =>
      have : (s.addEvent e).rootEventId = some x := by
        simp [Session.addEvent, h]
      simp [this]
    | none =>
      cases hp : e.parentId with
      | none =>
        have : (s.addEvent e).rootEventId = some e.id := by
          simp [Session.addEvent, h, hp]
        simp [this, List.find?, hp]
      | some p =>
        have : (s.addEvent e).rootEventId = none := by
          simp [Session.addEvent, h, hp]
        simp [this, List.find?, hp]

/-- C1 (corrected, counterexample): calling `capture_state` on a fresh
recorder with NO active session leaves the recorder state completely
unchanged — no session is auto-started, nothing is stored anywhere —
and merely returns the snapshot, tagged with an empty trace id.  The
claimed auto-start and append do not happen. -/
theorem captureState_without_session_drops_snapshot :
    RecorderState.init.currentSession = none ∧
    RecorderState.init.captureState (.pyInt 1) none none =
      (RecorderState.init, .ok (intSnapshot 1 "")) ∧
    (intSnapshot 1 "").traceId = "" := ⟨rfl, rfl, rfl⟩

/-- C1 (amended): when a session is active, `capture_state` appends the
snapshot produced by the engine to it; when no session is active, the
recorder state is left unchanged (the snapshot is only returned, with an
empty trace id) — `capture_state` never auto-starts a session. -/
theorem captureState_appends_only_when_session_active
    (r : RecorderState) (v : PyVal) (name desc : Option String) :
    (∀ s snap, r.currentSession = some s →
        capture v s.id (match r.eventStack with | top :: _ => top.id | [] => "")
            name desc = .ok snap →
        r.captureState v name desc =
          ({ r with currentSession := some (s.addSnapshot snap) }, .ok snap)) ∧
    (r.currentSession = none →
        (r.captureState v name desc).1 = r ∧
        ∀ snap, (r.captureState v name desc).2 = .ok snap → snap.traceId = "") := by
  constructor
  · intro s snap hs hc
    simp only [RecorderState.captureState, hs, hc]
  · intro h
    constructor
    · simp only [RecorderState.captureState, h]
      cases hc : capture v "" (match r.eventStack with | top :: _ => top.id | [] => "")
          name desc <;> simp
    · intro snap
      simp only [RecorderState.captureState, h]
      cases hser : serializeState v [] "root" 10 with
      | mk w res =>
        cases res with
        | error e =>
          simp [capture, hser]
        | ok tr =>
          simp [capture, hser]
          intro h2
          rw [← h2]

/-- Witness for C1 (amended) at a concrete recorder with an active
session: the snapshot of the int `2` lands in the session. -/
theorem captureState_appends_only_when_session_active_w :
    (withSession demoSession).captureState (.pyInt 2) none none =
      ({ withSession demoSession with
         currentSession := some (demoSession.addSnapshot (intSnapshot 2 "s0")) },
       .ok (intSnapshot 2 "s0")) :=
  (captureState_appends_only_when_session_active
      (withSession demoSession) (.pyInt 2) none none).1
    demoSession (intSnapshot 2 "s0") rfl rfl

/-- C2 (corrected, counterexample): ending a span while the span stack
is EMPTY and a session is active is not a no-op — the
`if not self._event_stack` check fires and finalizes and saves the
active session. -/
theorem spanEnd_on_empty_stack_ends_active_session :
    (withSession demoSession).eventStack = [] ∧
    (withSession demoSession).currentSession = some demoSession ∧
    ((withSession demoSession).recordSpanEnd (mkEvent "sp" "span")).currentSession = none ∧
    ((withSession demoSession).recordSpanEnd (mkEvent "sp" "span")).storage.index =
      [summarize (demoSession.complete .success)] := ⟨rfl, rfl, rfl, rfl⟩

/-- C2 (amended): ending a span whose id differs from the top of a
NON-EMPTY span stack really is a no-op: nothing is popped, the session
is not finalized, the whole recorder state is unchanged.  (With an
empty stack the call is not a no-op: an active session gets finalized —
see the counterexample.) -/
theorem spanEnd_mismatched_top_is_noop (r : RecorderState) (span top : Event)
    (rest : List Event) (hs : r.eventStack = top :: rest) (hne : top.id ≠ span.id) :
    r.recordSpanEnd span = r := by
  simp only [RecorderState.recordSpanEnd, hs, if_neg hne]
  simp [hs]

/-- Witness for C2 (amended): a mismatched close above a one-entry
stack changes nothing. -/
theorem spanEnd_mismatched_top_is_noop_w :
    ({ currentSession := some demoSession, eventStack := [mkEvent "top" "t"],
       storage := .empty } : RecorderState).recordSpanEnd (mkEvent "sp" "s") =
      { currentSession := some demoSession, eventStack := [mkEvent "top" "t"],
        storage := .empty } :=
  spanEnd_mismatched_top_is_noop _ (mkEvent "sp" "s") (mkEvent "top" "t") [] rfl
    (by decide)

/-- C7 (confirmed): when ending a span pops the last stack entry, the
active session is finalized — end timestamp set, status set to the
span's status with `running` mapped to `success` (always terminal) —
and handed to storage via `save_session`, with no explicit
`end_session` call. -/
theorem rootSpanEnd_finalizes_and_saves (r : RecorderState) (s : Session)
    (top span : Event) (hs : r.currentSession = some s)
    (hstack : r.eventStack = [top]) (hid : top.id = span.id) :
    r.recordSpanEnd span =
      { currentSession := none, eventStack := [],
        storage := r.storage.saveSession
          (s.complete (if span.status ≠ .running then span.status else .success)) } ∧
    (s.complete (if span.status ≠ .running then span.status else .success)).endSet
      = true ∧
    (if span.status ≠ .running then span.status else .success).isTerminal = true := by
  refine ⟨?_, rfl, ?_⟩
  · simp only [RecorderState.recordSpanEnd, hstack, if_pos hid]
    simp [RecorderState.endSession, hs]
  · cases h : span.status <;> simp [h, EventStatus.isTerminal]

/-- Witness for C7 at a concrete recorder whose root span "sp" is open
and still `running`: closing it saves the session with status
`success`. -/
theorem rootSpanEnd_finalizes_and_saves_w :
    ({ currentSession := some demoSession, eventStack := [mkEvent "sp" "span"],
       storage := .empty } : RecorderState).recordSpanEnd (mkEvent "sp" "span") =
      { currentSession := none, eventStack := [],
        storage := StorageState.empty.saveSession
          (demoSession.complete
            (if (mkEvent "sp" "span").status ≠ .running
             then (mkEvent "sp" "span").status else .success)) } ∧
    (demoSession.complete
      (if (mkEvent "sp" "span").status ≠ .running
       then (mkEvent "sp" "span").status else .success)).endSet = true ∧
    (if (mkEvent "sp" "span").status ≠ .running
     then (mkEvent "sp" "span").status else .success).isTerminal = true :=
  rootSpanEnd_finalizes_and_saves _ demoSession (mkEvent "sp" "span")
    (mkEvent "sp" "span") rfl rfl rfl

/-- C8 (confirmed): a span begun over a non-empty stack is parented
under the top-of-stack span; over an empty stack its `parent_id` is
left as it was (empty for spans built by `Recorder.span`);
`root_event_id` is set at most once, to the first appended event with
no parent; and the concrete outer/inner scenario gives
`inner.parent_id = outer.id` and `root_event_id = outer.id`. -/
theorem spanStart_parent_and_root_linking (r : RecorderState) (span : Event)
    (sid nm : String) :
    (∀ s top rest, r.currentSession = some s → r.eventStack = top :: rest →
        (r.recordSpanStart span sid nm).eventStack =
          { span with parentId := some top.id, traceId := s.id } :: top :: rest) ∧
    (∀ s, r.currentSession = some s → r.eventStack = [] →
        (r.recordSpanStart span sid nm).eventStack =
          [{ span with traceId := s.id }]) ∧
    (∀ (s : Session) (es : List Event),
        (addEvents s es).rootEventId =
          match s.rootEventId with
          | some x => some x
          | none => (es.find? (fun e => e.parentId.isNone)).map (fun e => e.id)) ∧
    (((((RecorderState.init.startSession "S" "sess").1).recordSpanStart
          (mkEvent "outer-id" "outer") "x" "x").recordSpanStart
          (mkEvent "inner-id" "inner") "x" "x").currentSession.map
        (fun s => (s.events.map Event.parentId, s.rootEventId)) =
      some ([none, some "outer-id"], some "outer-id")) := by
  refine ⟨?_, ?_, addEvents_rootEventId, by rfl⟩
  · intro s top rest hs hstack
    simp [RecorderState.recordSpanStart, hs, hstack]
  · intro s hs hstack
    simp [RecorderState.recordSpanStart, hs, hstack]

/-- Witness for C8 at a concrete state: a span begun over the stack
`[outer]` within session "s0" is parented under "outer". -/
theorem spanStart_parent_and_root_linking_w :
    (({ currentSession := some demoSession, eventStack := [mkEvent "outer-id" "outer"],
        storage := .empty } : RecorderState).recordSpanStart
          (mkEvent "inner-id" "inner") "x" "x").eventStack =
      { mkEvent "inner-id" "inner" with
        parentId := some (mkEvent "outer-id" "outer").id,
        traceId := demoSession.id } :: [mkEvent "outer-id" "outer"] :=
  (spanStart_parent_and_root_linking _ (mkEvent "inner-id" "inner") "x" "x").1
    demoSession (mkEvent "outer-id" "outer") [] rfl rfl

/-- C9 (corrected, counterexample): nothing freezes a terminal status —
`complete` just assigns, so calling it again transitions the status a
second time (`success` then `error`), violating "transitions exactly
once and never changes again". -/
theorem complete_transitions_twice :
    (mkEvent "e" "ev").status = .running ∧
    ((mkEvent "e" "ev").complete .success).status = .success ∧
    ((mkEvent "e" "ev").complete .success).status.isTerminal = true ∧
    (((mkEvent "e" "ev").complete .success).complete .error).status = .error ∧
    (((mkEvent "e" "ev").complete .success).complete .error).status ≠ .success := by
  decide

/-- C9 (amended): a fresh event starts `running` with no end timestamp
and no duration; ONE `complete` call with a terminal status (the only
way the recorder core itself completes events) sets the status to that
terminal value and sets both `end_timestamp` and `duration`; `fail`
completes with `error`.  The data model itself does not prevent further
`complete` calls from changing a terminal status again. -/
theorem event_single_completion_invariant (i n msg : String) (st : EventStatus)
    (hterm : st.isTerminal = true) :
    (mkEvent i n).status = .running ∧
    (mkEvent i n).endSet = false ∧
    (mkEvent i n).durationSet = false ∧
    ((mkEvent i n).complete st).status = st ∧
    ((mkEvent i n).complete st).status.isTerminal = true ∧
    ((mkEvent i n).complete st).endSet = true ∧
    ((mkEvent i n).complete st).durationSet = true ∧
    ((mkEvent i n).fail msg).status = .error ∧
    ((mkEvent i n).fail msg).endSet = true := by
  simp [mkEvent, Event.complete, Event.fail, hterm]

/-- Witness for C9 (amended) at a concrete event completed with
`success`. -/
theorem event_single_completion_invariant_w :
    (mkEvent "e" "ev").status = .running ∧
    (mkEvent "e" "ev").endSet = false ∧
    (mkEvent "e" "ev").durationSet = false ∧
    ((mkEvent "e" "ev").complete .success).status = .success ∧
    ((mkEvent "e" "ev").complete .success).status.isTerminal = true ∧
    ((mkEvent "e" "ev").complete .success).endSet = true ∧
    ((mkEvent "e" "ev").complete .success).durationSet = true ∧
    ((mkEvent "e" "ev").fail "boom").status = .error ∧
    ((mkEvent "e" "ev").fail "boom").endSet = true :=
  event_single_completion_invariant "e" "ev" "boom" .success (by decide)

/-- C10 (confirmed): `save_session` inserts the saved session's summary
at the FRONT of the index, `list_sessions` returns the index truncated
to the limit (so newest-saved-first), and `replay` without a session id
resolves the LAST listed entry — the OLDEST saved session, not the
latest. -/
theorem save_prepends_and_replay_picks_oldest :
    (∀ (st : StorageState) (s : Session) (limit : Nat), 0 < limit →
        ((st.saveSession s).listSessions limit).head? = some (summarize s)) ∧
    (∀ (st : StorageState) (limit : Nat),
        (st.listSessions limit).length ≤ limit) ∧
    (∀ s1 s2 : Session, s1.id ≠ s2.id →
        ((StorageState.empty.saveSession s1).saveSession s2).listSessions 100 =
          [summarize s2, summarize s1] ∧
        ((StorageState.empty.saveSession s1).saveSession s2).replayTargetId =
          some s1.id) := by
  refine ⟨?_, ?_, ?_⟩
  · intro st s limit hl
    cases limit with
    | zero => omega
    | succ n => simp [StorageState.saveSession, StorageState.listSessions]
  · intro st limit
    simp [StorageState.listSessions]
  · intro s1 s2 hne
    have hfil : ((StorageState.empty.saveSession s1).saveSession s2).index =
        [summarize s2, summarize s1] := by
      simp [StorageState.saveSession, StorageState.empty, summarize, hne]
    refine ⟨?_, ?_⟩
    · simp [StorageState.listSessions, hfil]
    · simp [StorageState.replayTargetId, StorageState.listSessions, hfil, summarize]

/-- Witness for C10 at two concrete sessions saved in order "sA" then
"sB": the index lists "sB" before "sA", and replay resolves "sA", the
first-saved (oldest) session. -/
theorem save_prepends_and_replay_picks_oldest_w :
    ((StorageState.empty.saveSession (mkSession "sA" "a")).saveSession
        (mkSession "sB" "b")).listSessions 100 =
      [summarize (mkSession "sB" "b"), summarize (mkSession "sA" "a")] ∧
    ((StorageState.empty.saveSession (mkSession "sA" "a")).saveSession
        (mkSession "sB" "b")).replayTargetId = some "sA" :=
  (save_prepends_and_replay_picks_oldest.2.2 (mkSession "sA" "a")
    (mkSession "sB" "b") (by decide))

/-- C3 (corrected, counterexample): two engine-captured snapshots whose
serialized trees agree everywhere except at the list element
`root.items[1]` diff to exactly ONE `changed` entry — but it is keyed by
the CONTAINING LIST's path "root.items" (the diff never recurses into
lists), not by "root.items[1]" as claimed. -/
theorem diff_keyed_at_list_not_element :
    capture (.pyDict [(.kstr "items", .pyList [.pyStr "a", .pyStr "b"])])
        "t" "e" none none = .ok (itemsSnapshot [strNode "a", strNode "b"]) ∧
    capture (.pyDict [(.kstr "items", .pyList [.pyStr "a", .pyStr "c"])])
        "t" "e" none none = .ok (itemsSnapshot [strNode "a", strNode "c"]) ∧
    snapshotDiff (itemsSnapshot [strNode "a", strNode "b"])
        (itemsSnapshot [strNode "a", strNode "c"]) =
      [("root.items",
        .changed (.jarr [strNode "a", strNode "b"])
                 (.jarr [strNode "a", strNode "c"]))] ∧
    ("root.items" : String) ≠ "root.items[1]" := by
  refine ⟨rfl, rfl, ?_, by decide⟩
  simp [snapshotDiff, itemsSnapshot, itemsTree, strNode, diffValues, diffKeys,
        pyEq, pyEqList, pyEqFields, alookup, unionKeys, dedupKeys, keysOf,
        jTypeName]

/-- C3 (amended): for every pair of captured-shape snapshots of
`{"items": [...]}` whose serialized trees are identical except at the
single list element `root.items[1]`, the diff yields exactly one entry,
of kind `changed`, keyed by the containing list's path "root.items"
(carrying the two whole serialized element lists), and no entry at any
other path. -/
theorem diff_single_list_element_change (e0 a b : J) (rest : List J)
    (h : pyEq a b = false) :
    snapshotDiff (itemsSnapshot (e0 :: a :: rest)) (itemsSnapshot (e0 :: b :: rest)) =
      [("root.items",
        .changed (.jarr (e0 :: a :: rest)) (.jarr (e0 :: b :: rest)))] := by
  simp [snapshotDiff, itemsSnapshot, itemsTree, diffValues, diffKeys,
        pyEq, pyEqList, pyEqFields, alookup, unionKeys, dedupKeys, keysOf,
        jTypeName, h]

/-- Witness for C3 (amended) at concrete serialized strings "b" vs "c"
in position 1. -/
theorem diff_single_list_element_change_w :
    snapshotDiff (itemsSnapshot [strNode "a", strNode "b"])
        (itemsSnapshot [strNode "a", strNode "c"]) =
      [("root.items",
        .changed (.jarr [strNode "a", strNode "b"])
                 (.jarr [strNode "a", strNode "c"]))] :=
  diff_single_list_element_change (strNode "a") (strNode "b") (strNode "c") []
    (by rfl)

def exceptOk {α : Type} : Except String α → Bool
  | .ok _ => true
  | .error _ => false

theorem serializeLastResort_ok (tn : String) (pick strR : Option String)
    (w : List String) (path : String) (h : pick.isSome || strR.isSome = true) :
    exceptOk (serializeLastResort tn pick strR w path).2 = true := by
  cases pick with
  | some enc => rfl
  | none =>
    cases strR with
    | some s => rfl
    | none => simp at h

mutual

theorem nr_state (v : PyVal) (h : neverRaises v = true) (w : List String)
    (path : String) (d : Nat) :
    exceptOk (serializeState v w path d).2 = true := by
  by_cases hd : d = 0
  · subst hd
    cases v <;> simp [serializeState, exceptOk]
  · cases v with
    | pyNone => simp [serializeState, hd, exceptOk]
    | pyBool b => simp [serializeState, hd, exceptOk]
    | pyInt n => simp [serializeState, hd, exceptOk]
    | pyFloat bits => simp [serializeState, hd, exceptOk]
    | pyStr s => simp [serializeState, hd, exceptOk]
    | pyList xs =>
      have hx : neverRaisesList xs = true := by simpa [neverRaises] using h
      have hseq := nr_seq xs hx w path 0 d
      rcases hs : serializeSeq xs w path 0 d with ⟨w', res⟩
      rw [hs] at hseq
      cases res with
      | error e => simp [exceptOk] at hseq
      | ok pr => simp [serializeState, hd, hs, exceptOk]
    | pyTuple xs =>
      have hx : neverRaisesList xs = true := by simpa [neverRaises] using h
      have hseq := nr_seq xs hx w path 0 d
      rcases hs : serializeSeq xs w path 0 d with ⟨w', res⟩
      rw [hs] at hseq
      cases res with
      | error e => simp [exceptOk] at hseq
      | ok pr => simp [serializeState, hd, hs, exceptOk]
    | pyDict entries =>
      have hx : neverRaisesEntries entries = true := by simpa [neverRaises] using h
      have hent := nr_entries entries hx [] true w path d
      rcases hs : serializeDictEntries entries [] true w path d with ⟨w', res⟩
      rw [hs] at hent
      cases res with
      | error e => simp [exceptOk] at hent
      | ok pr => simp [serializeState, hd, hs, exceptOk]
    | pyObj tn md custom pyd attrs pick strR =>
      simp only [neverRaises, Bool.or_eq_true] at h
      rcases custom with _ | (_ | flds)
      · -- custom = none
        rcases pyd with _ | (_ | dump)
        · -- pyd = none
          cases attrs with
          | none =>
            have hps : pick.isSome || strR.isSome = true := by
              simpa [succeeds, neverRaisesAttrsOpt] using h
            simp only [serializeState, hd, if_neg hd]
            exact serializeLastResort_ok tn pick strR w path hps
          | some l =>
            rcases hw : serializeAttrs l [] true w path d with ⟨w3, res3⟩
            cases res3 with
            | ok pr => simp [serializeState, hd, hw, exceptOk]
            | error e =>
              cases hnr : neverRaisesAttrs l with
              | true =>
                have hok := nr_attrs l hnr [] true w path d
                rw [hw] at hok
                simp [exceptOk] at hok
              | false =>
                have hps : pick.isSome || strR.isSome = true := by
                  simpa [succeeds, neverRaisesAttrsOpt, hnr] using h
                simp only [serializeState, hd, if_neg hd, hw]
                exact serializeLastResort_ok tn pick strR _ path hps
        · -- pyd = some none
          cases attrs with
          | none =>
            have hps : pick.isSome || strR.isSome = true := by
              simpa [succeeds, neverRaisesAttrsOpt] using h
            simp only [serializeState, hd, if_neg hd]
            exact serializeLastResort_ok tn pick strR _ path hps
          | some l =>
            rcases hw : serializeAttrs l [] true
                (w ++ [path ++ ": Pydantic serialization failed: raised"]) path d
              with ⟨w3, res3⟩
            cases res3 with
            | ok pr => simp [serializeState, hd, hw, exceptOk]
            | error e =>
              cases hnr : neverRaisesAttrs l with
              | true =>
                have hok := nr_attrs l hnr [] true
                    (w ++ [path ++ ": Pydantic serialization failed: raised"]) path d
                rw [hw] at hok
                simp [exceptOk] at hok
              | false =>
                have hps : pick.isSome || strR.isSome = true := by
                  simpa [succeeds, neverRaisesAttrsOpt, hnr] using h
                simp only [serializeState, hd, if_neg hd, hw]
                exact serializeLastResort_ok tn pick strR _ path hps
        · -- pyd succeeds
          simp [serializeState, hd, exceptOk]
      · -- custom = some none
        rcases pyd with _ | (_ | dump)
        · cases attrs with
          | none =>
            have hps : pick.isSome || strR.isSome = true := by
              simpa [succeeds, neverRaisesAttrsOpt] using h
            simp only [serializeState, hd, if_neg hd]
            exact serializeLastResort_ok tn pick strR _ path hps
          | some l =>
            rcases hw : serializeAttrs l [] true
                (w ++ [path ++ ": custom serializer failed: raised"]) path d
              with ⟨w3, res3⟩
            cases res3 with
            | ok pr => simp [serializeState, hd, hw, exceptOk]
            | error e =>
              cases hnr : neverRaisesAttrs l with
              | true =>
                have hok := nr_attrs l hnr [] true
                    (w ++ [path ++ ": custom serializer failed: raised"]) path d
                rw [hw] at hok
                simp [exceptOk] at hok
              | false =>
                have hps : pick.isSome || strR.isSome = true := by
                  simpa [succeeds, neverRaisesAttrsOpt, hnr] using h
                simp only [serializeState, hd, if_neg hd, hw]
                exact serializeLastResort_ok tn pick strR _ path hps
        · cases attrs with
          | none =>
            have hps : pick.isSome || strR.isSome = true := by
              simpa [succeeds, neverRaisesAttrsOpt] using h
            simp only [serializeState, hd, if_neg hd]
            exact serializeLastResort_ok tn pick strR _ path hps
          | some l =>
            rcases hw : serializeAttrs l [] true
                (w ++ [path ++ ": custom serializer failed: raised",
                       path ++ ": Pydantic serialization failed: raised"]) path d
              with ⟨w3, res3⟩
            cases res3 with
            | ok pr => simp [serializeState, hd, hw, exceptOk]
            | error e =>
              cases hnr : neverRaisesAttrs l with
              | true =>
                have hok := nr_attrs l hnr [] true
                    (w ++ [path ++ ": custom serializer failed: raised",
                           path ++ ": Pydantic serialization failed: raised"]) path d
                rw [hw] at hok
                simp [exceptOk] at hok
              | false =>
                have hps : pick.isSome || strR.isSome = true := by
                  simpa [succeeds, neverRaisesAttrsOpt, hnr] using h
                simp [serializeState, hd, hw]
                exact serializeLastResort_ok tn pick strR _ path hps
        · simp [serializeState, hd, exceptOk]
      · -- custom succeeds
        simp [serializeState, hd, exceptOk]
termination_by (sizeOf v, 0)

theorem nr_seq (xs : List PyVal) (h : neverRaisesList xs = true)
    (w : List String) (path : String) (i d : Nat) :
    exceptOk (serializeSeq xs w path i d).2 = true := by
  match xs with
  | [] => rfl
  | x :: rest =>
    simp only [neverRaisesList, Bool.and_eq_true] at h
    have h1 := nr_state x h.1 w (path ++ "[" ++ toString i ++ "]") (d - 1)
    rcases hs1 : serializeState x w (path ++ "[" ++ toString i ++ "]") (d - 1)
      with ⟨w1, res1⟩
    rw [hs1] at h1
    cases res1 with
    | error e => simp [exceptOk] at h1
    | ok pr =>
      obtain ⟨j, r⟩ := pr
      have h2 := nr_seq rest h.2 w1 path (i + 1) d
      rcases hs2 : serializeSeq rest w1 path (i + 1) d with ⟨w2, res2⟩
      rw [hs2] at h2
      cases res2 with
      | error e => simp [exceptOk] at h2
      | ok pr2 => simp [serializeSeq, hs1, hs2, exceptOk]
termination_by (sizeOf xs, 0)

theorem nr_entries (entries : List (PyKey × PyVal))
    (h : neverRaisesEntries entries = true) (acc : List (String × J))
    (racc : Bool) (w : List String) (path : String) (d : Nat) :
    exceptOk (serializeDictEntries entries acc racc w path d).2 = true := by
  match entries with
  | [] => rfl
  | (k, v) :: rest =>
    simp only [neverRaisesEntries, Bool.and_eq_true] at h
    have h1 := nr_state v h.1 w (path ++ "." ++ k.pyStr) (d - 1)
    rcases hs1 : serializeState v w (path ++ "." ++ k.pyStr) (d - 1) with ⟨w1, res1⟩
    rw [hs1] at h1
    cases res1 with
    | error e => simp [exceptOk] at h1
    | ok pr =>
      obtain ⟨j, r⟩ := pr
      have h2 := nr_entries rest h.2 (upsert acc k.pyStr j) (racc && r) w1 path d
      simpa [serializeDictEntries, hs1] using h2
termination_by (sizeOf entries, 0)

theorem nr_attrs (l : List (String × PyVal)) (h : neverRaisesAttrs l = true)
    (acc : List (String × J)) (racc : Bool) (w : List String) (path : String)
    (d : Nat) :
    exceptOk (serializeAttrs l acc racc w path d).2 = true := by
  match l with
  | [] => rfl
  | (k, v) :: rest =>
    simp only [neverRaisesAttrs, Bool.and_eq_true] at h
    by_cases hk : startsWithUnderscore k = true
    · have h2 := nr_attrs rest h.2 acc racc w path d
      simpa [serializeAttrs, hk] using h2
    · have hv : neverRaises v = true := by
        rcases Bool.or_eq_true_iff.mp h.1 with h' | h'
        · exact absurd h' (by simp [hk])
        · exact h'
      have h1 := nr_state v hv w (path ++ "." ++ k) (d - 1)
      rcases hs1 : serializeState v w (path ++ "." ++ k) (d - 1) with ⟨w1, res1⟩
      rw [hs1] at h1
      cases res1 with
      | error e => simp [exceptOk] at h1
      | ok pr =>
        obtain ⟨j, r⟩ := pr
        have h2 := nr_attrs rest h.2 (upsert acc k j) (racc && r) w1 path d
        simpa [serializeAttrs, hk, hs1] using h2
termination_by (sizeOf l, 0)

end

/-- C5 (corrected, counterexample): `capture` raises on an object for
which every fallback fails and whose final `str()` rendering itself
raises (a `__slots__` class with raising `__reduce__` and `__str__`):
the last resort of the chain is not exception-guarded, so the failure
propagates instead of degrading to a warning. -/
theorem capture_raises_on_str_failure :
    capture badObj "t" "e" none none = .error "exception raised by str()" := rfl

/-- C5 (amended): `capture` returns a `StateSnapshot` without raising
for every value in which each object (reachable through containers)
either short-circuits serialization (custom serializer or pydantic dump
succeeds), has a working pickle or `str()` fallback, or walks a
`__dict__` of cleanly serializable public attributes; in the guarded
steps a failure degrades one step down the chain with a warning. -/
theorem capture_total_on_guarded_values (v : PyVal) (h : neverRaises v = true)
    (tid eid : String) (cn dsc : Option String) :
    ∃ snap, capture v tid eid cn dsc = .ok snap := by
  have hok := nr_state v h [] "root" 10
  rcases hs : serializeState v [] "root" 10 with ⟨w, res⟩
  rw [hs] at hok
  cases res with
  | error e => simp [exceptOk] at hok
  | ok pr =>
    obtain ⟨tree, restorable⟩ := pr
    exact ⟨{ traceId := tid, eventId := eid, state := tree,
             stateType := pyTypeName v, restorable := restorable,
             checkpointName := cn, description := dsc,
             serializationWarnings := w }, by simp [capture, hs]⟩

/-- Witness for C5 (amended): a list holding an int and an object whose
`str()` works is captured successfully. -/
theorem capture_total_on_guarded_values_w :
    ∃ snap, capture (.pyList [.pyInt 1, .pyObj "HasStr" "m" none none none none
        (some "<obj>")]) "t" "e" none none = .ok snap :=
  capture_total_on_guarded_values _ (by rfl) "t" "e" none none

mutual

theorem pm_state (v : PyVal) (hp : isPlain v = true) (w : List String)
    (path : String) (d : Nat) :
    ∃ ws t r, serializeState v w path d = (w ++ ws, .ok (t, r)) := by
  by_cases hd : d = 0
  · subst hd
    exact ⟨[path ++ ": max depth reached"],
      .jobj [("_error", .jstr "max_depth_reached"), ("_path", .jstr path)], false,
      by cases v <;> simp [serializeState]⟩
  · cases v with
    | pyNone =>
      exact ⟨[], .jobj [("_value", .jnull), ("_type", .jstr "NoneType")], true,
        by simp [serializeState, hd]⟩
    | pyBool b =>
      exact ⟨[], .jobj [("_value", .jbool b), ("_type", .jstr "bool")], true,
        by simp [serializeState, hd]⟩
    | pyInt n =>
      exact ⟨[], .jobj [("_value", .jint n), ("_type", .jstr "int")], true,
        by simp [serializeState, hd]⟩
    | pyFloat bits =>
      exact ⟨[], .jobj [("_value", .jfloat bits), ("_type", .jstr "float")], true,
        by simp [serializeState, hd]⟩
    | pyStr s =>
      exact ⟨[], .jobj [("_value", .jstr s), ("_type", .jstr "str")], true,
        by simp [serializeState, hd]⟩
    | pyList xs =>
      have hx : isPlainList xs = true := by simpa [isPlain] using hp
      obtain ⟨ws, ts, r, hs⟩ := pm_seq xs hx w path 0 d
      exact ⟨ws, .jobj [("_value", .jarr ts), ("_type", .jstr "list")], r,
        by simp [serializeState, hd, hs]⟩
    | pyTuple xs =>
      have hx : isPlainList xs = true := by simpa [isPlain] using hp
      obtain ⟨ws, ts, r, hs⟩ := pm_seq xs hx w path 0 d
      exact ⟨ws, .jobj [("_value", .jarr ts), ("_type", .jstr "tuple")], r,
        by simp [serializeState, hd, hs]⟩
    | pyDict entries =>
      have hx : isPlainEntries entries = true := by simpa [isPlain] using hp
      obtain ⟨ws, items, rch, hs⟩ := pm_entries entries hx [] true w path d
      exact ⟨ws, .jobj [("_value", .jobj items), ("_type", .jstr "dict")], true && rch,
        by simp [serializeState, hd, hs]⟩
    | pyObj tn md custom pyd attrs pick strR => simp [isPlain] at hp
termination_by (sizeOf v, 0)

theorem pm_seq (xs : List PyVal) (hp : isPlainList xs = true) (w : List String)
    (path : String) (i d : Nat) :
    ∃ ws ts r, serializeSeq xs w path i d = (w ++ ws, .ok (ts, r)) := by
  match xs with
  | [] => exact ⟨[], [], true, by simp [serializeSeq]⟩
  | x :: rest =>
    simp only [isPlainList, Bool.and_eq_true] at hp
    obtain ⟨ws1, t1, r1, h1⟩ := pm_state x hp.1 w (path ++ "[" ++ toString i ++ "]") (d - 1)
    obtain ⟨ws2, ts2, r2, h2⟩ := pm_seq rest hp.2 (w ++ ws1) path (i + 1) d
    exact ⟨ws1 ++ ws2, t1 :: ts2, r1 && r2,
      by simp [serializeSeq, h1, h2]⟩
termination_by (sizeOf xs, 0)

theorem pm_entries (entries : List (PyKey × PyVal)) (hp : isPlainEntries entries = true)
    (acc : List (String × J)) (racc : Bool) (w : List String) (path : String)
    (d : Nat) :
    ∃ ws items rch, serializeDictEntries entries acc racc w path d =
      (w ++ ws, .ok (items, racc && rch)) := by
  match entries with
  | [] => exact ⟨[], acc, true, by simp [serializeDictEntries]⟩
  | (k, v) :: rest =>
    simp only [isPlainEntries, Bool.and_eq_true] at hp
    obtain ⟨ws1, t1, r1, h1⟩ := pm_state v hp.1 w (path ++ "." ++ k.pyStr) (d - 1)
    obtain ⟨ws2, items2, rch2, h2⟩ := pm_entries rest hp.2 (upsert acc k.pyStr t1)
        (racc && r1) (w ++ ws1) path d
    exact ⟨ws1 ++ ws2, items2, r1 && rch2,
      by simp [serializeDictEntries, h1, h2, Bool.and_assoc]⟩
termination_by (sizeOf entries, 0)

end

mutual

theorem dw_state (v : PyVal) (hp : isPlain v = true) (w : List String)
    (path : String) (d : Nat) (hdeep : d < pyDepth v) :
    ∃ ws t, serializeState v w path d = (w ++ ws, .ok (t, false)) ∧
      ∃ p, p ++ ": max depth reached" ∈ ws := by
  by_cases hd : d = 0
  · subst hd
    refine ⟨[path ++ ": max depth reached"],
      .jobj [("_error", .jstr "max_depth_reached"), ("_path", .jstr path)],
      by cases v <;> simp [serializeState], path, by simp⟩
  · cases v with
    | pyNone => simp [pyDepth] at hdeep; omega
    | pyBool b => simp [pyDepth] at hdeep; omega
    | pyInt n => simp [pyDepth] at hdeep; omega
    | pyFloat bits => simp [pyDepth] at hdeep; omega
    | pyStr s => simp [pyDepth] at hdeep; omega
    | pyList xs =>
      have hx : isPlainList xs = true := by simpa [isPlain] using hp
      have hdl : d ≤ pyDepthList xs := by simp [pyDepth] at hdeep; omega
      obtain ⟨ws, ts, hs, p, hmem⟩ := dw_seq xs hx w path 0 d (by omega) hdl
      exact ⟨ws, .jobj [("_value", .jarr ts), ("_type", .jstr "list")],
        by simp [serializeState, hd, hs], p, hmem⟩
    | pyTuple xs =>
      have hx : isPlainList xs = true := by simpa [isPlain] using hp
      have hdl : d ≤ pyDepthList xs := by simp [pyDepth] at hdeep; omega
      obtain ⟨ws, ts, hs, p, hmem⟩ := dw_seq xs hx w path 0 d (by omega) hdl
      exact ⟨ws, .jobj [("_value", .jarr ts), ("_type", .jstr "tuple")],
        by simp [serializeState, hd, hs], p, hmem⟩
    | pyDict entries =>
      have hx : isPlainEntries entries = true := by simpa [isPlain] using hp
      have hdl : d ≤ pyDepthEntries entries := by simp [pyDepth] at hdeep; omega
      obtain ⟨ws, items, hs, p, hmem⟩ := dw_entries entries hx [] true w path d
        (by omega) hdl
      exact ⟨ws, .jobj [("_value", .jobj items), ("_type", .jstr "dict")],
        by simp [serializeState, hd, hs], p, hmem⟩
    | pyObj tn md custom pyd attrs pick strR => simp [isPlain] at hp
termination_by (sizeOf v, 0)

theorem dw_seq (xs : List PyVal) (hp : isPlainList xs = true) (w : List String)
    (path : String) (i d : Nat) (hd1 : 1 ≤ d) (hdeep : d ≤ pyDepthList xs) :
    ∃ ws ts, serializeSeq xs w path i d = (w ++ ws, .ok (ts, false)) ∧
      ∃ p, p ++ ": max depth reached" ∈ ws := by
  match xs with
  | [] => simp [pyDepthList] at hdeep; omega
  | x :: rest =>
    simp only [isPlainList, Bool.and_eq_true] at hp
    simp only [pyDepthList] at hdeep
    rcases le_max_iff.mp hdeep with hx | hrest
    · obtain ⟨ws1, t1, h1, p, hmem⟩ := dw_state x hp.1 w
        (path ++ "[" ++ toString i ++ "]") (d - 1) (by omega)
      obtain ⟨ws2, ts2, r2, h2⟩ := pm_seq rest hp.2 (w ++ ws1) path (i + 1) d
      refine ⟨ws1 ++ ws2, t1 :: ts2, by simp [serializeSeq, h1, h2], p, ?_⟩
      exact List.mem_append_left _ hmem
    · obtain ⟨ws1, t1, r1, h1⟩ := pm_state x hp.1 w
        (path ++ "[" ++ toString i ++ "]") (d - 1)
      obtain ⟨ws2, ts2, h2, p, hmem⟩ := dw_seq rest hp.2 (w ++ ws1) path (i + 1) d
        hd1 hrest
      refine ⟨ws1 ++ ws2, t1 :: ts2, by simp [serializeSeq, h1, h2], p, ?_⟩
      exact List.mem_append_right _ hmem
termination_by (sizeOf xs, 0)

theorem dw_entries (entries : List (PyKey × PyVal))
    (hp : isPlainEntries entries = true) (acc : List (String × J)) (racc : Bool)
    (w : List String) (path : String) (d : Nat) (hd1 : 1 ≤ d)
    (hdeep : d ≤ pyDepthEntries entries) :
    ∃ ws items, serializeDictEntries entries acc racc w path d =
      (w ++ ws, .ok (items, false)) ∧
      ∃ p, p ++ ": max depth reached" ∈ ws := by
  match entries with
  | [] => simp [pyDepthEntries] at hdeep; omega
  | (k, v) :: rest =>
    simp only [isPlainEntries, Bool.and_eq_true] at hp
    simp only [pyDepthEntries] at hdeep
    rcases le_max_iff.mp hdeep with hx | hrest
    · obtain ⟨ws1, t1, h1, p, hmem⟩ := dw_state v hp.1 w
        (path ++ "." ++ k.pyStr) (d - 1) (by omega)
      obtain ⟨ws2, items2, rch2, h2⟩ := pm_entries rest hp.2
        (upsert acc k.pyStr t1) false (w ++ ws1) path d
      refine ⟨ws1 ++ ws2, items2, by simp [serializeDictEntries, h1, h2], p, ?_⟩
      exact List.mem_append_left _ hmem
    · obtain ⟨ws1, t1, r1, h1⟩ := pm_state v hp.1 w (path ++ "." ++ k.pyStr) (d - 1)
      obtain ⟨ws2, items2, h2, p, hmem⟩ := dw_entries rest hp.2
        (upsert acc k.pyStr t1) (racc && r1) (w ++ ws1) path d hd1 hrest
      refine ⟨ws1 ++ ws2, items2, by simp [serializeDictEntries, h1, h2], p, ?_⟩
      exact List.mem_append_right _ hmem
termination_by (sizeOf entries, 0)

end

/-- C6 (corrected, counterexample): a picklable object holding a
12-deep list next to an attribute whose serialization raises: the depth
budget IS exhausted (the max-depth warning is recorded), yet the
snapshot has `restorable = True`, because the failed `__dict__` walk is
recovered by the pickle fallback, which reports restorable
unconditionally.  (Python witness: a class with a custom `__reduce__`
whose `__dict__` holds the deep list and an unpicklable, `__str__`-raising
object.) -/
theorem depth_warning_yet_restorable :
    capture leakyObj "t" "e" none none = .ok leakySnapshot ∧
    leakySnapshot.restorable = true ∧
    "root.a[0][0][0][0][0][0][0][0][0]: max depth reached" ∈
      leakySnapshot.serializationWarnings := by
  set_option maxRecDepth 4000 in
  refine ⟨by rfl, rfl, by simp [leakySnapshot]⟩

/-- C6 (amended): for every captured value built from `None`, booleans,
ints, floats, strings, lists, tuples and dicts in which the depth
budget (default 10) is exhausted on some subtree, the snapshot has
`restorable = False` and its warnings contain at least one
"max depth reached" warning keyed by the subtree's path.  (For values
containing arbitrary objects the warning is still recorded, but
`restorable` can leak back to `True` — see the counterexample.) -/
theorem capture_depth_exhausted_not_restorable (v : PyVal)
    (hp : isPlain v = true) (hdeep : 10 < pyDepth v) (tid eid : String)
    (cn dsc : Option String) :
    ∃ snap, capture v tid eid cn dsc = .ok snap ∧ snap.restorable = false ∧
      ∃ p, p ++ ": max depth reached" ∈ snap.serializationWarnings := by
  obtain ⟨ws, t, hser, p, hmem⟩ := dw_state v hp [] "root" 10 hdeep
  refine ⟨{ traceId := tid, eventId := eid, state := t,
            stateType := pyTypeName v, restorable := false,
            checkpointName := cn, description := dsc,
            serializationWarnings := [] ++ ws },
    by simp [capture, hser], rfl, p, by simpa using hmem⟩

/-- Witness for C6 (amended): an 11-levels-deep nested list is captured
with `restorable = False` and a depth warning. -/
theorem capture_depth_exhausted_not_restorable_w :
    ∃ snap, capture (nestedList 11) "t" "e" none none = .ok snap ∧
      snap.restorable = false ∧
      ∃ p, p ++ ": max depth reached" ∈ snap.serializationWarnings :=
  capture_depth_exhausted_not_restorable (nestedList 11) (by rfl) (by decide)
    "t" "e" none none

theorem contains_false_ne {l : List String} {s x : String}
    (h : l.contains s = false) (hx : x ∈ l) : x ≠ s := by
  intro he
  subst he
  have h2 := List.elem_iff.mpr hx
  simp only [List.contains] at h
  rw [h2] at h
  cases h

theorem upsert_eq_append {acc : List (String × J)} {k : String} (j : J)
    (h : ∀ a ∈ acc, a.1 ≠ k) : upsert acc k j = acc ++ [(k, j)] := by
  induction acc with
  | nil => rfl
  | cons a rest ih =>
    obtain ⟨k', v'⟩ := a
    have hk' : k' ≠ k := h (k', v') (List.mem_cons_self _ _)
    simp only [upsert, if_neg hk', List.cons_append, List.cons.injEq, true_and]
    exact ih (fun a ha => h a (List.mem_cons_of_mem _ ha))

mutual

theorem rt_state (v : PyVal) (hp : isPlain v = true) (hk : strKeyed v = true)
    (w : List String) (path : String) (d : Nat) (hdep : pyDepth v ≤ d) :
    ∃ t, serializeState v w path d = (w, .ok (t, true)) ∧
      ∀ env tn, deserializeState env t tn = .ok v := by
  cases v with
  | pyNone =>
    have hd0 : d ≠ 0 := by simp [pyDepth] at hdep; omega
    exact ⟨.jobj [("_value", .jnull), ("_type", .jstr "NoneType")],
      by simp [serializeState, hd0], fun env tn => by
        simp [deserializeState, deserializeCore, alookup, storedTypeOf, jTruthy,
              jToPyOpt, jToPy]⟩
  | pyBool b =>
    have hd0 : d ≠ 0 := by simp [pyDepth] at hdep; omega
    exact ⟨.jobj [("_value", .jbool b), ("_type", .jstr "bool")],
      by simp [serializeState, hd0], fun env tn => by
        simp [deserializeState, deserializeCore, alookup, storedTypeOf, jTruthy,
              jToPyOpt, jToPy]⟩
  | pyInt n =>
    have hd0 : d ≠ 0 := by simp [pyDepth] at hdep; omega
    exact ⟨.jobj [("_value", .jint n), ("_type", .jstr "int")],
      by simp [serializeState, hd0], fun env tn => by
        simp [deserializeState, deserializeCore, alookup, storedTypeOf, jTruthy,
              jToPyOpt, jToPy]⟩
  | pyFloat bits =>
    have hd0 : d ≠ 0 := by simp [pyDepth] at hdep; omega
    exact ⟨.jobj [("_value", .jfloat bits), ("_type", .jstr "float")],
      by simp [serializeState, hd0], fun env tn => by
        simp [deserializeState, deserializeCore, alookup, storedTypeOf, jTruthy,
              jToPyOpt, jToPy]⟩
  | pyStr s =>
    have hd0 : d ≠ 0 := by simp [pyDepth] at hdep; omega
    exact ⟨.jobj [("_value", .jstr s), ("_type", .jstr "str")],
      by simp [serializeState, hd0], fun env tn => by
        simp [deserializeState, deserializeCore, alookup, storedTypeOf, jTruthy,
              jToPyOpt, jToPy]⟩
  | pyList xs =>
    have hd0 : d ≠ 0 := by simp [pyDepth] at hdep; omega
    have hx : isPlainList xs = true := by simpa [isPlain] using hp
    have hkx : strKeyedList xs = true := by simpa [strKeyed] using hk
    have hdx : pyDepthList xs < d := by simp [pyDepth] at hdep; omega
    obtain ⟨ts, hser, hdes⟩ := rt_seq xs hx hkx w path 0 d hdx
    exact ⟨.jobj [("_value", .jarr ts), ("_type", .jstr "list")],
      by simp [serializeState, hd0, hser], fun env tn => by
        simp [deserializeState, deserializeCore, alookup, storedTypeOf, jTruthy,
              hdes env]⟩
  | pyTuple xs =>
    have hd0 : d ≠ 0 := by simp [pyDepth] at hdep; omega
    have hx : isPlainList xs = true := by simpa [isPlain] using hp
    have hkx : strKeyedList xs = true := by simpa [strKeyed] using hk
    have hdx : pyDepthList xs < d := by simp [pyDepth] at hdep; omega
    obtain ⟨ts, hser, hdes⟩ := rt_seq xs hx hkx w path 0 d hdx
    exact ⟨.jobj [("_value", .jarr ts), ("_type", .jstr "tuple")],
      by simp [serializeState, hd0, hser], fun env tn => by
        simp [deserializeState, deserializeCore, alookup, storedTypeOf, jTruthy,
              hdes env]⟩
  | pyDict es =>
    have hd0 : d ≠ 0 := by simp [pyDepth] at hdep; omega
    have hx : isPlainEntries es = true := by simpa [isPlain] using hp
    have hks : entryKeysOk es = true ∧ strKeyedEntries es = true := by
      simpa [strKeyed, Bool.and_eq_true] using hk
    have hdx : pyDepthEntries es < d := by simp [pyDepth] at hdep; omega
    obtain ⟨ts, hser, hkeys, hdes⟩ := rt_entries es hx hks.2 hks.1 [] true w path d
      (by intro e he a ha; cases ha) hdx
    refine ⟨.jobj [("_value", .jobj ts), ("_type", .jstr "dict")],
      by simp [serializeState, hd0, hser], fun env tn => by
        simp [deserializeState, deserializeCore, alookup, storedTypeOf, jTruthy,
              hdes env]⟩
  | pyObj tn md custom pyd attrs pick strR => simp [isPlain] at hp
termination_by (sizeOf v, 0)

theorem rt_seq (xs : List PyVal) (hp : isPlainList xs = true)
    (hk : strKeyedList xs = true) (w : List String) (path : String) (i d : Nat)
    (hdep : pyDepthList xs < d) :
    ∃ ts, serializeSeq xs w path i d = (w, .ok (ts, true)) ∧
      ∀ env, deserializeItems env ts = .ok xs := by
  match xs with
  | [] => exact ⟨[], rfl, fun env => by simp [deserializeItems]⟩
  | x :: rest =>
    simp only [isPlainList, Bool.and_eq_true] at hp
    simp only [strKeyedList, Bool.and_eq_true] at hk
    simp only [pyDepthList] at hdep
    have hdx : pyDepth x < d := lt_of_le_of_lt (le_max_left _ _) hdep
    have hdr : pyDepthList rest < d := lt_of_le_of_lt (le_max_right _ _) hdep
    obtain ⟨t1, hser1, hdes1⟩ := rt_state x hp.1 hk.1 w
      (path ++ "[" ++ toString i ++ "]") (d - 1) (by omega)
    obtain ⟨ts2, hser2, hdes2⟩ := rt_seq rest hp.2 hk.2 w path (i + 1) d hdr
    refine ⟨t1 :: ts2, by simp [serializeSeq, hser1, hser2], fun env => ?_⟩
    simp [deserializeItems, hdes1 env "unknown", hdes2 env]
termination_by (sizeOf xs, 0)

theorem rt_entries (es : List (PyKey × PyVal)) (hp : isPlainEntries es = true)
    (hk : strKeyedEntries es = true) (hke : entryKeysOk es = true)
    (acc : List (String × J)) (racc : Bool) (w : List String) (path : String)
    (d : Nat) (hfresh : ∀ e ∈ es, ∀ a ∈ acc, a.1 ≠ e.1.pyStr)
    (hdep : pyDepthEntries es < d) :
    ∃ ts, serializeDictEntries es acc racc w path d = (w, .ok (acc ++ ts, racc)) ∧
      ts.map Prod.fst = es.map (fun e => e.1.pyStr) ∧
      ∀ env, deserializeMapItems env ts = .ok es := by
  match es with
  | [] =>
    exact ⟨[], by simp [serializeDictEntries], by simp,
      fun env => by simp [deserializeMapItems]⟩
  | (k, v) :: rest =>
    simp only [isPlainEntries, Bool.and_eq_true] at hp
    simp only [strKeyedEntries, Bool.and_eq_true] at hk
    simp only [entryKeysOk, Bool.and_eq_true] at hke
    obtain ⟨⟨hkstr, hnotin⟩, hke'⟩ := hke
    obtain ⟨s, rfl⟩ : ∃ s, k = .kstr s := by
      cases k with
      | kstr s => exact ⟨s, rfl⟩
      | kint n => simp at hkstr
    simp only [pyDepthEntries] at hdep
    have hdx : pyDepth v < d := lt_of_le_of_lt (le_max_left _ _) hdep
    have hdr : pyDepthEntries rest < d := lt_of_le_of_lt (le_max_right _ _) hdep
    obtain ⟨t1, hser1, hdes1⟩ := rt_state v hp.1 hk.1 w
      (path ++ "." ++ (PyKey.kstr s).pyStr) (d - 1) (by omega)
    have hup : upsert acc (PyKey.kstr s).pyStr t1 =
        acc ++ [((PyKey.kstr s).pyStr, t1)] :=
      upsert_eq_append t1 (fun a ha =>
        hfresh (.kstr s, v) (List.mem_cons_self _ _) a ha)
    have hfresh' : ∀ e ∈ rest, ∀ a ∈ acc ++ [((PyKey.kstr s).pyStr, t1)],
        a.1 ≠ e.1.pyStr := by
      intro e he a ha
      rcases List.mem_append.mp ha with ha' | ha'
      · exact hfresh e (List.mem_cons_of_mem _ he) a ha'
      · have : a = ((PyKey.kstr s).pyStr, t1) := by simpa using ha'
        subst this
        have hne := contains_false_ne (by simpa using hnotin)
          (List.mem_map_of_mem (fun e => e.1.pyStr) he)
        exact Ne.symm hne
    obtain ⟨ts2, hser2, hkeys2, hdes2⟩ := rt_entries rest hp.2 hk.2 hke'
      (acc ++ [((PyKey.kstr s).pyStr, t1)]) racc w path d hfresh' hdr
    refine ⟨((PyKey.kstr s).pyStr, t1) :: ts2, ?_, ?_, fun env => ?_⟩
    · simp [serializeDictEntries, hser1, hup, hser2]
    · simp [hkeys2]
    · simp [deserializeMapItems, hdes1 env "unknown", hdes2 env, PyKey.pyStr]
termination_by (sizeOf es, 0)

end

/-- C4 (corrected, counterexample): the round-trip law fails on dicts
with non-string keys.  `{1: "a", "1": "b"}` has two distinct keys that
both coerce to the wire key "1", so the second assignment overwrites
the first and the round trip returns a ONE-entry dict with a string
key — the container's length and keys are not reproduced. -/
theorem dict_key_coercion_breaks_roundtrip :
    collideDict = .pyDict [(.kint 1, .pyStr "a"), (.kstr "1", .pyStr "b")] ∧
    serializeState collideDict [] "root" 10 = ([], .ok (collideTree, true)) ∧
    deserializeState freshEnv collideTree "dict" =
      .ok (.pyDict [(.kstr "1", .pyStr "b")]) ∧
    (.pyDict [(.kstr "1", .pyStr "b")] : PyVal) ≠ collideDict := by
  refine ⟨rfl, rfl, ?_, by simp [collideDict]⟩
  simp [deserializeState, deserializeCore, deserializeMapItems, alookup,
        storedTypeOf, jTruthy, collideTree, strNode, jToPyOpt, jToPy]

/-- C4 (amended): for every value built from `None`, booleans, ints,
floats, strings, lists, tuples and dicts whose dict keys are all
STRINGS (and, being Python dict keys, distinct), within the depth
budget (default 10), deserializing the serialization reproduces the
value exactly: scalars equal, containers of the same kind with the same
length and keys, nested values recursively equal — and the
serialization itself is clean (no warnings, restorable).  Dicts with
non-string keys are only reproduced up to key coercion and may merge
entries (see the counterexample). -/
theorem roundtrip_plain_strkeyed (v : PyVal) (hp : isPlain v = true)
    (hk : strKeyed v = true) (hdep : pyDepth v ≤ 10) :
    ∃ t, serializeState v [] "root" 10 = ([], .ok (t, true)) ∧
      ∀ env tn, deserializeState env t tn = .ok v :=
  rt_state v hp hk [] "root" 10 hdep

/-- Witness for C4 (amended) at a concrete nested value. -/
theorem roundtrip_plain_strkeyed_w :
    ∃ t, serializeState
        (.pyDict [(.kstr "a", .pyList [.pyInt 1, .pyStr "x", .pyBool true]),
                  (.kstr "b", .pyTuple [.pyNone, .pyFloat 7])])
        [] "root" 10 = ([], .ok (t, true)) ∧
      ∀ env tn, deserializeState env t tn =
        .ok (.pyDict [(.kstr "a", .pyList [.pyInt 1, .pyStr "x", .pyBool true]),
                      (.kstr "b", .pyTuple [.pyNone, .pyFloat 7])]) :=
  roundtrip_plain_strkeyed _ (by rfl) (by rfl) (by decide)
